import Mathlib

/-!
Verification of the `PlanningDialog` planning/execution core of the
botbuilder planning library.

The definitions below are a shallow embedding of `PlanningDialog`
(rule evaluation and conflict resolution, plan-change queuing, the
step-consultation protocol, state load/save and the turn driver).
Pure functions of the source become Lean functions; the mutable state
threaded through the TypeScript methods becomes explicit state passing;
JavaScript exceptions become `Except`; optional/undefined fields become
`Option`.  Types that live in source files outside this repository
snapshot (`PlanChangeType`, the dialog-context primitives) are modelled
from the specification and marked as such in their doc comments.
-/

namespace Planning

/-- Change types a `PlanChangeList` may carry.  Modelled from the spec:
the `PlanChangeType` enum lives in `planningContext.ts`, which is not part
of the source snapshot; the spec lists `newPlan`, `doSteps`,
`doStepsBeforeTags`, `doStepsLater`, `replacePlan`, `endPlan`. -/
inductive PlanChangeType where
  | newPlan
  | doSteps
  | doStepsBeforeTags
  | doStepsLater
  | replacePlan
  | endPlan
deriving DecidableEq, Repr

/-- A proposed mutation of the plan, tagged with the intents/entities that
justified it.  `intentsMatched`/`entitiesMatched` are optional in the
source (`top.intentsMatched || []`), hence `Option`.  The carried steps
are irrelevant to conflict resolution and are kept opaque. -/
structure PlanChangeList where
  changeType : PlanChangeType
  intentsMatched : Option (List String) := none
  entitiesMatched : Option (List String) := none
  steps : List String := []
deriving DecidableEq, Repr

/-- Models `change.intentsMatched || []`. -/
def intentsOf (c : PlanChangeList) : List String := c.intentsMatched.getD []

/-- Models `change.entitiesMatched || []`. -/
def entitiesOf (c : PlanChangeList) : List String := c.entitiesMatched.getD []

/-- The comparison performed inside `findBestChange`s loop: is `change`
better than the current `top`?  (more matched intents, ties broken by
more matched entities). -/
def betterCmp (change top : PlanChangeList) : Bool :=
  if (intentsOf change).length > (intentsOf top).length then true
  else if (intentsOf change).length == (intentsOf top).length then
    decide ((entitiesOf change).length > (entitiesOf top).length)
  else false

/-- The loop of `PlanningDialog.findBestChange`, with the mutable
`top`/`topIndex` locals made explicit; `i` is the index of the head of
the remaining list in the original list.  Returns the final
`(top, topIndex)` pair. -/
def findBestGo : List PlanChangeList → Option PlanChangeList → Int → Nat →
    Option PlanChangeList × Int
  | [], top, topIndex, _ => (top, topIndex)
  | change :: rest, top, topIndex, i =>
    let better : Bool :=
      match top with
      | none => true
      | some t => betterCmp change t
    if better then findBestGo rest (some change) (Int.ofNat i) (i + 1)
    else findBestGo rest top topIndex (i + 1)

/-- Source `PlanningDialog.findBestChange`: index of the change with the most
intents and entities covered, `-1` if there is none. -/
def findBestChange (changes : List PlanChangeList) : Int :=
  (findBestGo changes none (-1) 0).2

/-- Source `PlanningDialog.intentsOverlap`: two change lists overlap when both
carry intents and share one, or when both carry none (the
`i2.length == i1.length` branch is reached only when at least one list is
empty). -/
def intentsOverlap (c1 c2 : PlanChangeList) : Bool :=
  let i1 := intentsOf c1
  let i2 := intentsOf c2
  if i2.length > 0 ∧ i1.length > 0 then
    i2.any (fun s => i1.contains s)
  else if i2.length == i1.length then true
  else false

theorem betterCmp_eq_true_iff (c t : PlanChangeList) :
    betterCmp c t = true ↔
      (intentsOf t).length < (intentsOf c).length ∨
        ((intentsOf c).length = (intentsOf t).length ∧
          (entitiesOf t).length < (entitiesOf c).length) := by
  unfold betterCmp
  split
  · simp; omega
  · split
    · next h h' =>
      simp only [beq_iff_eq] at h'
      simp [h']
    · next h h' =>
      simp only [beq_iff_eq] at h'
      simp
      omega

theorem betterCmp_irrefl (c : PlanChangeList) : betterCmp c c = false := by
  cases h : betterCmp c c with
  | false => rfl
  | true =>
    rw [betterCmp_eq_true_iff] at h
    omega

theorem betterCmp_trans_false {c w t : PlanChangeList}
    (hc : betterCmp c t = false) (hw : betterCmp w t = true) :
    betterCmp c w = false := by
  cases h : betterCmp c w with
  | false => rfl
  | true =>
    rw [betterCmp_eq_true_iff] at h hw
    rw [← Bool.not_eq_true, betterCmp_eq_true_iff] at hc
    push_neg at hc
    omega

theorem findBestGo_some_spec (rest : List PlanChangeList) :
    ∀ (pre : List PlanChangeList) (t : PlanChangeList) (j : Nat),
      pre[j]? = some t →
      (∀ c ∈ pre, betterCmp c t = false) →
      ∃ (t' : PlanChangeList) (j' : Nat),
        findBestGo rest (some t) (Int.ofNat j) pre.length = (some t', Int.ofNat j') ∧
        (pre ++ rest)[j']? = some t' ∧
        ∀ c ∈ pre ++ rest, betterCmp c t' = false := by
  induction rest with
  | nil =>
    intro pre t j hj hdom
    exact ⟨t, j, rfl, by simpa using hj, by simpa using hdom⟩
  | cons change rest ih =>
    intro pre t j hj hdom
    have hjlt : j < pre.length := by
      by_contra hcon
      push_neg at hcon
      rw [List.getElem?_eq_none hcon] at hj
      cases hj
    cases hb : betterCmp change t with
    | true =>
      obtain ⟨t', j', heq, hget, hdom'⟩ :=
        ih (pre ++ [change]) change pre.length
          (by simp)
          (by
            intro c hc
            rcases List.mem_append.mp hc with hc | hc
            · exact betterCmp_trans_false (hdom c hc) hb
            · have hcc : c = change := by simpa using hc
              subst hcc
              exact betterCmp_irrefl c)
      refine ⟨t', j', ?_, ?_, ?_⟩
      · simp only [findBestGo, hb, if_true]
        simp only [List.length_append, List.length_singleton] at heq
        exact heq
      · have h2 : pre ++ change :: rest = (pre ++ [change]) ++ rest := by simp
        rw [h2]
        exact hget
      · intro c hc
        apply hdom'
        simp only [List.append_assoc, List.singleton_append]
        exact hc
    | false =>
      obtain ⟨t', j', heq, hget, hdom'⟩ :=
        ih (pre ++ [change]) t j
          (by rw [List.getElem?_append_left hjlt]; exact hj)
          (by
            intro c hc
            rcases List.mem_append.mp hc with hc | hc
            · exact hdom c hc
            · have hcc : c = change := by simpa using hc
              subst hcc
              exact hb)
      refine ⟨t', j', ?_, ?_, ?_⟩
      · simp only [findBestGo, hb, if_false]
        simp only [List.length_append, List.length_singleton] at heq
        exact heq
      · have h2 : pre ++ change :: rest = (pre ++ [change]) ++ rest := by simp
        rw [h2]
        exact hget
      · intro c hc
        apply hdom'
        simp only [List.append_assoc, List.singleton_append]
        exact hc

/-- For a nonempty candidate list, `findBestChange` returns the index of a
candidate that no other candidate beats. -/
theorem findBestChange_spec (c : PlanChangeList) (cs : List PlanChangeList) :
    ∃ (t' : PlanChangeList) (j' : Nat),
      findBestChange (c :: cs) = Int.ofNat j' ∧
      (c :: cs)[j']? = some t' ∧
      ∀ x ∈ c :: cs, betterCmp x t' = false := by
  obtain ⟨t', j', heq, hget, hdom⟩ :=
    findBestGo_some_spec cs [c] c 0 (by simp)
      (by
        intro x hx
        have hxc : x = c := by simpa using hx
        subst hxc
        exact betterCmp_irrefl x)
  refine ⟨t', j', ?_, by simpa using hget, by simpa using hdom⟩
  unfold findBestChange findBestGo
  simp only [if_true]
  rw [show ([c] : List PlanChangeList).length = 1 from rfl] at heq
  rw [heq]

theorem findBestChange_eq_neg_one_iff (l : List PlanChangeList) :
    findBestChange l = -1 ↔ l = [] := by
  constructor
  · intro h
    cases l with
    | nil => rfl
    | cons c cs =>
      obtain ⟨t', j', heq, _, _⟩ := findBestChange_spec c cs
      rw [heq] at h
      cases h
  · intro h
    subst h
    rfl

theorem findBestChange_toNat_lt (l : List PlanChangeList)
    (h : 0 ≤ findBestChange l) : (findBestChange l).toNat < l.length := by
  cases l with
  | nil => cases h
  | cons c cs =>
    obtain ⟨t', j', heq, hget, _⟩ := findBestChange_spec c cs
    rw [heq]
    have : j' < (c :: cs).length := by
      by_contra hcon
      push_neg at hcon
      rw [List.getElem?_eq_none hcon] at hget
      cases hget
    simpa using this

/-- The candidate at the selected index dominates every candidate. -/
theorem findBestChange_get_max (l : List PlanChangeList)
    (h : 0 ≤ findBestChange l) :
    ∀ x ∈ l, betterCmp x (l.get ⟨(findBestChange l).toNat, findBestChange_toNat_lt l h⟩) = false := by
  cases l with
  | nil => cases h
  | cons c cs =>
    obtain ⟨t', j', heq, hget, hdom⟩ := findBestChange_spec c cs
    intro x hx
    have hval : (c :: cs).get ⟨(findBestChange (c :: cs)).toNat,
        findBestChange_toNat_lt (c :: cs) h⟩ = t' := by
      have hlt : (findBestChange (c :: cs)).toNat < (c :: cs).length :=
        findBestChange_toNat_lt (c :: cs) h
      have : (c :: cs)[(findBestChange (c :: cs)).toNat]? = some t' := by
        rw [heq]
        simpa using hget
      rw [List.getElem?_eq_getElem hlt] at this
      simpa [List.get_eq_getElem] using this
    rw [hval]
    exact hdom x hx

/-- One unrolling of the `while (true)` selection loop of
`PlanningDialog.queueBestMatches` (lines 376-399), with an explicit
structural fuel so that it is computable by the kernel: pick the best
remaining change via `findBestChange`, record the index it was found at,
remove it, and drop every remaining candidate whose intents overlap it.
Each entry of the result is
`(capturedIndex, winner, candidatesDiscardedForOverlap)`.  One unit of
fuel is consumed per iteration and each iteration removes at least one
candidate, so `l.length` fuel is never exhausted
(`selectLoopFuel_fuel_irrel`). -/
def selectLoopFuel : Nat → List PlanChangeList →
    List (Nat × PlanChangeList × List PlanChangeList)
  | 0, _ => []
  | fuel + 1, l =>
    if h : 0 ≤ findBestChange l then
      let idx := (findBestChange l).toNat
      let change := l.get ⟨idx, findBestChange_toNat_lt l h⟩
      let rest := l.eraseIdx idx
      let discarded := rest.filter (fun c => intentsOverlap change c)
      let kept := rest.filter (fun c => !intentsOverlap change c)
      (idx, change, discarded) :: selectLoopFuel fuel kept
    else []

/-- The selection loop of `PlanningDialog.queueBestMatches`, run to
completion: candidate-count fuel always suffices. -/
def selectLoop (l : List PlanChangeList) :
    List (Nat × PlanChangeList × List PlanChangeList) :=
  selectLoopFuel l.length l

theorem selectLoopFuel_nil (fuel : Nat) : selectLoopFuel fuel [] = [] := by
  cases fuel with
  | zero => rfl
  | succ n =>
    rw [selectLoopFuel, dif_neg]
    decide

/-- In the positive case the remaining (kept) candidate list is strictly
shorter than the input. -/
theorem selectLoop_kept_length_lt (l : List PlanChangeList)
    (h : 0 ≤ findBestChange l) :
    ((l.eraseIdx (findBestChange l).toNat).filter
      (fun c => !intentsOverlap (l.get ⟨(findBestChange l).toNat,
          findBestChange_toNat_lt l h⟩) c)).length < l.length := by
  have hlt : (findBestChange l).toNat < l.length := findBestChange_toNat_lt l h
  have h1 : (l.eraseIdx (findBestChange l).toNat).length = l.length - 1 := by
    rw [List.length_eraseIdx]
    simp [hlt]
  calc ((l.eraseIdx (findBestChange l).toNat).filter _).length
      ≤ (l.eraseIdx (findBestChange l).toNat).length := List.length_filter_le _ _
    _ = l.length - 1 := h1
    _ < l.length := by omega

/-- The fuel is an artifact of the embedding: any fuel at least the number
of candidates computes the same winner list, so `selectLoop` (which uses
`l.length` fuel) is the loop run to completion. -/
theorem selectLoopFuel_fuel_irrel :
    ∀ (n : Nat) (l : List PlanChangeList) (f f' : Nat),
      l.length ≤ n → l.length ≤ f → l.length ≤ f' →
      selectLoopFuel f l = selectLoopFuel f' l := by
  intro n
  induction n with
  | zero =>
    intro l f f' hn _ _
    have hnil : l = [] := List.length_eq_zero.mp (Nat.le_zero.mp hn)
    subst hnil
    rw [selectLoopFuel_nil, selectLoopFuel_nil]
  | succ n ih =>
    intro l f f' hn hf hf'
    cases hl : l with
    | nil =>
      rw [selectLoopFuel_nil, selectLoopFuel_nil]
    | cons c cs =>
      subst hl
      have hpos : 0 < (c :: cs).length := by simp
      cases f with
      | zero => omega
      | succ f =>
        cases f' with
        | zero => omega
        | succ f' =>
          rw [selectLoopFuel, selectLoopFuel]
          by_cases h : 0 ≤ findBestChange (c :: cs)
          · simp only [dif_pos h]
            have hkept := selectLoop_kept_length_lt (c :: cs) h
            congr 1
            apply ih _ f f' <;> omega
          · rw [dif_neg h, dif_neg h]

/-- Winners of the selection loop are candidates. -/
theorem selectLoopFuel_winner_mem :
    ∀ (fuel : Nat) (l : List PlanChangeList), ∀ e ∈ selectLoopFuel fuel l, e.2.1 ∈ l := by
  intro fuel
  induction fuel with
  | zero => intro l e he; cases he
  | succ fuel ih =>
    intro l e he
    rw [selectLoopFuel] at he
    split at he
    · next h =>
      simp only [List.mem_cons] at he
      rcases he with he | he
      · subst he
        exact List.get_mem _ _ _
      · have hkept := ih _ e he
        have hsub : e.2.1 ∈ l.eraseIdx (findBestChange l).toNat :=
          List.mem_of_mem_filter hkept
        exact (List.eraseIdx_sublist l _).mem hsub
    · cases he

/-- Winners of the selection loop are candidates. -/
theorem selectLoop_winner_mem (l : List PlanChangeList) :
    ∀ e ∈ selectLoop l, e.2.1 ∈ l :=
  selectLoopFuel_winner_mem l.length l

/-- Does this change start a new plan or replace the current one? -/
def isNewOrReplace (c : PlanChangeList) : Bool :=
  c.changeType == PlanChangeType.newPlan || c.changeType == PlanChangeType.replacePlan

/-- The first loop of the queueing phase (lines 405-415): find the first
`newPlan`/`replacePlan` entry of the sorted winner list, extract it and
remove it from the list. -/
def removeFirstNewPlan :
    List (Nat × PlanChangeList) → Option PlanChangeList × List (Nat × PlanChangeList)
  | [] => (none, [])
  | x :: rest =>
    if isNewOrReplace x.2 then (some x.2, rest)
    else
      let r := removeFirstNewPlan rest
      (r.1, x :: r.2)

/-- The `switch` of the second queueing loop (lines 420-434): `doSteps`,
`doStepsBeforeTags` and `doStepsLater` winners are queued unchanged;
`newPlan`/`replacePlan` winners are demoted to `doStepsLater`; any other
change type has no `case` and is not queued. -/
def queueSwitch (p : Nat × PlanChangeList) : Option PlanChangeList :=
  match p.2.changeType with
  | PlanChangeType.doSteps => some p.2
  | PlanChangeType.doStepsBeforeTags => some p.2
  | PlanChangeType.doStepsLater => some p.2
  | PlanChangeType.newPlan => some { p.2 with changeType := PlanChangeType.doStepsLater }
  | PlanChangeType.replacePlan => some { p.2 with changeType := PlanChangeType.doStepsLater }
  | PlanChangeType.endPlan => none

/-- Insert an entry into a list already sorted by ascending captured
index, before the first entry with a strictly larger index. -/
def insertByIndex (x : Nat × PlanChangeList) :
    List (Nat × PlanChangeList) → List (Nat × PlanChangeList)
  | [] => [x]
  | y :: ys => if x.1 ≤ y.1 then x :: y :: ys else y :: insertByIndex x ys

/-- Models `appliedChanges.sort((a, b) => a.index - b.index)` (line 403): a
stable ascending sort by captured index (`Array.prototype.sort` is
stable), implemented structurally as insertion sort so that the kernel
can evaluate it. -/
def sortByIndex : List (Nat × PlanChangeList) → List (Nat × PlanChangeList)
  | [] => []
  | x :: rest => insertByIndex x (sortByIndex rest)

theorem length_insertByIndex (x : Nat × PlanChangeList) :
    ∀ l : List (Nat × PlanChangeList), (insertByIndex x l).length = l.length + 1 := by
  intro l
  induction l with
  | nil => rfl
  | cons y ys ih =>
    rw [insertByIndex]
    split
    · simp
    · simp [ih]

theorem length_sortByIndex :
    ∀ l : List (Nat × PlanChangeList), (sortByIndex l).length = l.length := by
  intro l
  induction l with
  | nil => rfl
  | cons y ys ih =>
    rw [sortByIndex, length_insertByIndex, ih]
    simp

/-- The queueing phase of `PlanningDialog.queueBestMatches` (lines
401-444), applied to the winner list with its captured indices.  Returns
the list of change lists queued, in queue order.  The winners are sorted
by captured index; with more than one winner, the first
`newPlan`/`replacePlan` winner is queued first as-is and the remaining
winners are queued through `queueSwitch`. -/
def queueBestChanges (applied : List (Nat × PlanChangeList)) : List PlanChangeList :=
  if (sortByIndex applied).length > 1 then
    (removeFirstNewPlan (sortByIndex applied)).1.toList ++
      (removeFirstNewPlan (sortByIndex applied)).2.filterMap queueSwitch
  else
    (sortByIndex applied).map (fun p => p.2)

/-- Source `PlanningDialog.queueBestMatches` (lines 366-444) after rule
evaluation collected `allChanges`: run the selection loop, then queue the
winners; returns the queued change lists and the handled flag. -/
def queueBestMatches (allChanges : List PlanChangeList) : List PlanChangeList × Bool :=
  if ((selectLoop allChanges).map (fun e => (e.1, e.2.1))).length > 0 then
    (queueBestChanges ((selectLoop allChanges).map (fun e => (e.1, e.2.1))), true)
  else ([], false)

/-- The winners of one evaluation cycle, sorted by captured index, as the
queueing phase sees them. -/
def sortedWinners (allChanges : List PlanChangeList) : List (Nat × PlanChangeList) :=
  sortByIndex ((selectLoop allChanges).map (fun e => (e.1, e.2.1)))

theorem queueSwitch_not_newOrReplace {p : Nat × PlanChangeList} {c : PlanChangeList}
    (h : queueSwitch p = some c) : isNewOrReplace c = false := by
  unfold queueSwitch at h
  unfold isNewOrReplace
  split at h <;> simp_all <;> subst h <;> simp [isNewOrReplace]

theorem queueSwitch_demotes {p : Nat × PlanChangeList}
    (hnew : isNewOrReplace p.2 = true) :
    queueSwitch p = some { p.2 with changeType := PlanChangeType.doStepsLater } := by
  unfold isNewOrReplace at hnew
  simp only [Bool.or_eq_true, beq_iff_eq] at hnew
  rcases hnew with h | h <;> simp [queueSwitch, h]

theorem filterMap_queueSwitch_no_new (l : List (Nat × PlanChangeList)) :
    (l.filterMap queueSwitch).filter (fun c => isNewOrReplace c) = [] := by
  rw [List.filter_eq_nil_iff]
  intro a ha
  rcases List.mem_filterMap.mp ha with ⟨p, _, hp⟩
  simp [queueSwitch_not_newOrReplace hp]

theorem queueBestChanges_filter_le (applied : List (Nat × PlanChangeList)) :
    ((queueBestChanges applied).filter (fun c => isNewOrReplace c)).length ≤ 1 := by
  unfold queueBestChanges
  split
  · rw [List.filter_append, List.length_append, filterMap_queueSwitch_no_new]
    simp only [List.length_nil, Nat.add_zero]
    cases (removeFirstNewPlan (sortByIndex applied)).1 with
    | none => simp
    | some c =>
      exact (List.length_filter_le _ _).trans (by simp)
  · next hle =>
    have h1 : ((sortByIndex applied).map (fun p => p.2)).length ≤ 1 := by
      rw [List.length_map]
      omega
    exact (List.length_filter_le _ _).trans h1

theorem queueBestMatches_filter_le (allChanges : List PlanChangeList) :
    (((queueBestMatches allChanges).1).filter (fun c => isNewOrReplace c)).length ≤ 1 := by
  unfold queueBestMatches
  split
  · exact queueBestChanges_filter_le _
  · simp

theorem queueBestMatches_demotes (allChanges : List PlanChangeList)
    (hgt : 1 < (sortedWinners allChanges).length) :
    ∀ p ∈ (removeFirstNewPlan (sortedWinners allChanges)).2,
      isNewOrReplace p.2 = true →
      { p.2 with changeType := PlanChangeType.doStepsLater } ∈
        (queueBestMatches allChanges).1 := by
  intro p hp hnew
  have hlen : (sortedWinners allChanges).length =
      ((selectLoop allChanges).map (fun e => (e.1, e.2.1))).length := by
    unfold sortedWinners
    exact length_sortByIndex _
  have happlied : ((selectLoop allChanges).map (fun e => (e.1, e.2.1))).length > 0 := by
    omega
  unfold queueBestMatches
  rw [if_pos happlied]
  show _ ∈ queueBestChanges _
  unfold queueBestChanges
  unfold sortedWinners at hgt hp
  rw [if_pos hgt]
  exact List.mem_append_right _
    (List.mem_filterMap.mpr ⟨p, hp, queueSwitch_demotes hnew⟩)


/-- Candidates that do not overlap have disjoint matched-intent sets. -/
theorem intentsOverlap_eq_false_disjoint {a b : PlanChangeList}
    (h : intentsOverlap a b = false) : ∀ s ∈ intentsOf a, s ∉ intentsOf b := by
  intro s hsa hsb
  unfold intentsOverlap at h
  have h1 : (intentsOf a).length > 0 := List.length_pos.mpr (List.ne_nil_of_mem hsa)
  have h2 : (intentsOf b).length > 0 := List.length_pos.mpr (List.ne_nil_of_mem hsb)
  rw [if_pos ⟨h2, h1⟩] at h
  have hany : (intentsOf b).any (fun t => (intentsOf a).contains t) = true := by
    rw [List.any_eq_true]
    exact ⟨s, hsb, by simpa using hsa⟩
  rw [hany] at h
  cases h

/-- The matched-intent sets of the winners of one selection loop run are
pairwise disjoint. -/
theorem selectLoopFuel_pairwise_disjoint :
    ∀ (fuel : Nat) (l : List PlanChangeList),
      ((selectLoopFuel fuel l).map (fun e => e.2.1)).Pairwise
        (fun w1 w2 => ∀ s ∈ intentsOf w1, s ∉ intentsOf w2) := by
  intro fuel
  induction fuel with
  | zero => intro l; exact List.Pairwise.nil
  | succ fuel ih =>
    intro l
    rw [selectLoopFuel]
    split
    · next h =>
      simp only [List.map_cons]
      refine List.Pairwise.cons ?_ (ih _)
      intro w hw
      rcases List.mem_map.mp hw with ⟨e, he, hwe⟩
      have hwk : e.2.1 ∈ (l.eraseIdx (findBestChange l).toNat).filter
          (fun c => !intentsOverlap (l.get ⟨(findBestChange l).toNat,
            findBestChange_toNat_lt l h⟩) c) :=
        selectLoopFuel_winner_mem fuel _ e he
      have hov : intentsOverlap (l.get ⟨(findBestChange l).toNat,
          findBestChange_toNat_lt l h⟩) e.2.1 = false := by
        have := (List.mem_filter.mp hwk).2
        simpa using this
      rw [← hwe]
      exact intentsOverlap_eq_false_disjoint hov
    · exact List.Pairwise.nil

theorem selectLoop_pairwise_disjoint (l : List PlanChangeList) :
    ((selectLoop l).map (fun e => e.2.1)).Pairwise
      (fun w1 w2 => ∀ s ∈ intentsOf w1, s ∉ intentsOf w2) :=
  selectLoopFuel_pairwise_disjoint l.length l

/-- Whenever a candidate is discarded for overlapping a winner, the winner
has strictly more matched intents, or equally many matched intents and at
least as many matched entities. -/
theorem selectLoopFuel_preference :
    ∀ (fuel : Nat) (l : List PlanChangeList), ∀ e ∈ selectLoopFuel fuel l, ∀ c ∈ e.2.2,
      intentsOverlap e.2.1 c = true ∧
      ((intentsOf c).length < (intentsOf e.2.1).length ∨
        ((intentsOf c).length = (intentsOf e.2.1).length ∧
          (entitiesOf c).length ≤ (entitiesOf e.2.1).length)) := by
  intro fuel
  induction fuel with
  | zero => intro l e he; cases he
  | succ fuel ih =>
    intro l e he c hc
    rw [selectLoopFuel] at he
    split at he
    · next h =>
      simp only [List.mem_cons] at he
      rcases he with he | he
      · subst he
        have hc2 : c ∈ List.filter
            (fun x => intentsOverlap (l.get ⟨(findBestChange l).toNat,
              findBestChange_toNat_lt l h⟩) x)
            (l.eraseIdx (findBestChange l).toNat) := hc
        have hmem := List.mem_filter.mp hc2
        refine ⟨hmem.2, ?_⟩
        show (intentsOf c).length <
            (intentsOf (l.get ⟨(findBestChange l).toNat,
              findBestChange_toNat_lt l h⟩)).length ∨
          ((intentsOf c).length =
            (intentsOf (l.get ⟨(findBestChange l).toNat,
              findBestChange_toNat_lt l h⟩)).length ∧
            (entitiesOf c).length ≤
              (entitiesOf (l.get ⟨(findBestChange l).toNat,
                findBestChange_toNat_lt l h⟩)).length)
        set change := l.get ⟨(findBestChange l).toNat, findBestChange_toNat_lt l h⟩ with hch
        have hcl : c ∈ l :=
          (List.eraseIdx_sublist l (findBestChange l).toNat).mem hmem.1
        have hbc : betterCmp c change = false := findBestChange_get_max l h c hcl
        have hnot : ¬((intentsOf change).length < (intentsOf c).length ∨
            ((intentsOf c).length = (intentsOf change).length ∧
              (entitiesOf change).length < (entitiesOf c).length)) := by
          intro hcon
          rw [← betterCmp_eq_true_iff] at hcon
          rw [hcon] at hbc
          cases hbc
        push_neg at hnot
        obtain ⟨hn1, hn2⟩ := hnot
        rcases Nat.lt_or_ge (intentsOf c).length (intentsOf change).length with hlt | hge
        · exact Or.inl hlt
        · have heq2 : (intentsOf c).length = (intentsOf change).length := by omega
          exact Or.inr ⟨heq2, by have := hn2 heq2; omega⟩
      · exact ih _ e he c hc
    · cases he

theorem selectLoop_preference (l : List PlanChangeList) :
    ∀ e ∈ selectLoop l, ∀ c ∈ e.2.2,
      intentsOverlap e.2.1 c = true ∧
      ((intentsOf c).length < (intentsOf e.2.1).length ∨
        ((intentsOf c).length = (intentsOf e.2.1).length ∧
          (entitiesOf c).length ≤ (entitiesOf e.2.1).length)) :=
  selectLoopFuel_preference l.length l


--------------------------------------------------------------------------------
-- Rules and first-match evaluation
--------------------------------------------------------------------------------

/-- A dialog event as dispatched to rules. -/
structure DialogEvent where
  name : String
  bubble : Bool
deriving DecidableEq, Repr

/-- A planning rule, reduced to its `evaluate` capability: given an event
it may produce a list of change lists (`undefined` modelled as `none`). -/
def Rule : Type := DialogEvent → Option (List PlanChangeList)

/-- Source `PlanningDialog.queueFirstMatch` (lines 354-364): iterate the rules in
registration order; the first rule producing a non-empty change list wins
and its first change list is queued.  Returns the queued change lists,
the handled flag, and the number of rules that were evaluated. -/
def queueFirstMatch (rules : List Rule) (event : DialogEvent) :
    List PlanChangeList × Bool × Nat :=
  match rules with
  | [] => ([], false, 0)
  | rule :: rest =>
    match rule event with
    | some (c :: _) => ([c], true, 1)
    | _ =>
      let r := queueFirstMatch rest event
      (r.1, r.2.1, r.2.2 + 1)

/-- Does this rule produce a non-empty change list for the event
(`changes && changes.length > 0`)? -/
def ruleMatches (rule : Rule) (event : DialogEvent) : Bool :=
  match rule event with
  | some (_ :: _) => true
  | _ => false

/-- First-match evaluation: if rule `i` is the first rule producing a
non-empty change list, exactly its first change list is queued, the event
is handled, and only rules `0..i` are ever evaluated. -/
theorem queueFirstMatch_first_rule_wins (rules : List Rule) (event : DialogEvent) :
    ∀ (i : Nat) (hi : i < rules.length) (c : PlanChangeList) (cs : List PlanChangeList),
      (rules.get ⟨i, hi⟩) event = some (c :: cs) →
      (∀ (k : Nat) (hk : k < i),
        ruleMatches (rules.get ⟨k, Nat.lt_trans hk hi⟩) event = false) →
      queueFirstMatch rules event = ([c], true, i + 1) := by
  induction rules with
  | nil => intro i hi; cases hi
  | cons rule rest ih =>
    intro i hi c cs hmatch hprior
    cases i with
    | zero =>
      simp only [List.get] at hmatch
      rw [queueFirstMatch, hmatch]
    | succ i =>
      have hrule : ruleMatches rule event = false := hprior 0 (Nat.succ_pos i)
      have hrec := ih i (Nat.lt_of_succ_lt_succ hi) c cs hmatch
        (fun k hk => hprior (k + 1) (Nat.succ_lt_succ hk))
      rw [queueFirstMatch]
      unfold ruleMatches at hrule
      split
      · next heq =>
        rw [heq] at hrule
        cases hrule
      · rw [hrec]

--------------------------------------------------------------------------------
-- Stored bot state, expiry, and persistence
--------------------------------------------------------------------------------

/-- The serialized dialog stack carried inside conversation state
(`DialogState`, from the external dialog library): opaque stack entries. -/
structure DialogState where
  dialogStack : List String
deriving DecidableEq, Repr

/-- The `userState` sub-document of `StoredBotState`: the concurrency
token plus whatever content the bot stored (kept as an opaque key/value
list, mirroring the open TypeScript object). -/
structure UserState where
  eTag : Option String := none
  data : List (String × String) := []
deriving DecidableEq, Repr

/-- The `conversationState` sub-document of `StoredBotState`: concurrency
token, last-access timestamp (epoch milliseconds, modelling the ISO-8601
string the source round-trips through `Date`), the serialized dialog
stack, and any other content the bot stored. -/
structure ConversationState where
  eTag : Option String := none
  lastAccess : Option Int := none
  dialogs : Option DialogState := none
  data : List (String × String) := []
deriving DecidableEq, Repr

/-- Source `StoredBotState`: the outer persisted envelope. -/
structure StoredBotState where
  userState : UserState
  conversationState : ConversationState
deriving DecidableEq, Repr

/-- The state-preparation prefix of `PlanningDialog.onTurn`
(lines 127-144), after the state has been loaded: deep-clone the state,
apply the expiry policy, stamp the last-access time on the clone and
ensure the clone has a dialog stack.  Returns
`(state, newState)` where `state` is the pre-turn snapshot variable
(which the expiry branch overwrites) and `newState` is the working clone
the `DialogContext` for the turn is built on.  Note that the expiry branch
of the source assigns the cleared document to `state`, not to `newState`. -/
def onTurnPrepareState (expireAfter : Option Int) (now : Int)
    (state : StoredBotState) : StoredBotState × StoredBotState :=
  let newState := state
  let state :=
    match expireAfter, newState.conversationState.lastAccess with
    | some ea, some lastAccess =>
      if now - lastAccess ≥ ea then
        { state with conversationState := { eTag := newState.conversationState.eTag } }
      else state
    | _, _ => state
  let newState := { newState with conversationState :=
    { newState.conversationState with lastAccess := some now } }
  let newState :=
    if newState.conversationState.dialogs = none then
      { newState with conversationState :=
        { newState.conversationState with dialogs := some { dialogStack := [] } } }
    else newState
  (state, newState)

/-- Keys under which the two sub-documents are persisted. -/
structure BotStateStorageKeys where
  userState : String
  conversationState : String
deriving DecidableEq, Repr

/-- A document as written to storage (the source writes the plain
sub-state objects). -/
inductive StoredDoc where
  | user (u : UserState)
  | conv (c : ConversationState)
deriving DecidableEq, Repr

/-- The outcome of `saveBotState`: the possibly eTag-stamped new state,
and the batch passed to `storage.write` (`none` when `storage.write` was
never invoked). -/
structure SaveOutcome where
  newState : StoredBotState
  written : Option (List (String × StoredDoc))
deriving DecidableEq, Repr

/-- Source `PlanningDialog.saveBotState` (lines 582-611).  With a pre-turn
snapshot supplied, each sub-document is compared by value
(`JSON.stringify` equality in the source, structural equality here) and
only changed sub-documents are added to the batch; without a snapshot both
are written unconditionally.  `storage.write` is invoked only when at
least one document changed. -/
def saveBotState (keys : BotStateStorageKeys) (newState : StoredBotState)
    (oldState : Option StoredBotState) (eTag : Option String) : SaveOutcome :=
  match oldState with
  | some old =>
    let userChanged := newState.userState ≠ old.userState
    let convChanged := newState.conversationState ≠ old.conversationState
    let newUser :=
      if userChanged then
        match eTag with
        | some t => { newState.userState with eTag := some t }
        | none => newState.userState
      else newState.userState
    let newConv :=
      if convChanged then
        match eTag with
        | some t => { newState.conversationState with eTag := some t }
        | none => newState.conversationState
      else newState.conversationState
    let changes :=
      (if userChanged then [(keys.userState, StoredDoc.user newUser)] else []) ++
      (if convChanged then [(keys.conversationState, StoredDoc.conv newConv)] else [])
    { newState := { userState := newUser, conversationState := newConv },
      written := if userChanged ∨ convChanged then some changes else none }
  | none =>
    let newUser :=
      match eTag with
      | some t => { newState.userState with eTag := some t }
      | none => newState.userState
    let newConv :=
      match eTag with
      | some t => { newState.conversationState with eTag := some t }
      | none => newState.conversationState
    { newState := { userState := newUser, conversationState := newConv },
      written := some [(keys.userState, StoredDoc.user newUser),
        (keys.conversationState, StoredDoc.conv newConv)] }

--------------------------------------------------------------------------------
-- Activities, storage keys, and the turn-driver load phase
--------------------------------------------------------------------------------

/-- A channel account (`{ id }`). -/
structure ChannelAccount where
  id : String
deriving DecidableEq, Repr

/-- The slice of an incoming activity consumed by the planning dialog.
`fromAccount` models the TypeScript `from` field (a Lean keyword);
optional fields are `Option`.  String falsiness (an empty string is falsy) is checked
explicitly where the source relies on it. -/
structure Activity where
  type : String
  channelId : String := ""
  fromAccount : Option ChannelAccount := none
  conversation : Option ChannelAccount := none
  recipient : ChannelAccount := { id := "" }
  membersAdded : Option (List ChannelAccount) := none
  membersRemoved : Option (List ChannelAccount) := none
  text : Option String := none
deriving DecidableEq, Repr

/-- JavaScript truthiness of an optional string
(`activity.from && activity.from.id ? activity.from.id : undefined`). -/
def optTruthy (o : Option String) : Bool :=
  match o with
  | some s => s ≠ ""
  | none => false

/-- Models `activity.from && activity.from.id ? activity.from.id : undefined`. -/
def rawUserId (a : Activity) : Option String :=
  match a.fromAccount with
  | some acct => if acct.id ≠ "" then some acct.id else none
  | none => none

/-- Models `activity.conversation && activity.conversation.id ? ... : undefined`. -/
def rawConversationId (a : Activity) : Option String :=
  match a.conversation with
  | some conv => if conv.id ≠ "" then some conv.id else none
  | none => none

/-- The user-id patch of `getStorageKeys` (lines 620-627): for a
`conversationUpdate` activity, recover the user id from the
membership-change payload when the direct sender id is absent or not
among the changed members. -/
def patchedUserId (a : Activity) : Option String :=
  let userId := rawUserId a
  if a.type == "conversationUpdate" then
    let users : List ChannelAccount := (a.membersAdded.getD (a.membersRemoved.getD [])).filter
      (fun u => u.id != a.recipient.id)
    let found : List ChannelAccount :=
      match userId with
      | some uid => users.filter (fun u => u.id == uid)
      | none => []
    match found, users with
    | [], u :: _ => some u.id
    | _, _ => userId
  else userId

/-- Source `PlanningDialog.getStorageKeys` (lines 613-638): derive the storage
keys from the channel, user and conversation ids, raising when either id
cannot be found. -/
def getStorageKeys (a : Activity) : Except String BotStateStorageKeys :=
  let userId := patchedUserId a
  let conversationId := rawConversationId a
  if optTruthy userId = false then
    Except.error "PlanningDialog: unable to load the bots state. The users ID could not be found."
  else if optTruthy conversationId = false then
    Except.error "PlanningDialog: unable to load the bots state. The conversations ID could not be found."
  else
    Except.ok
      { userState := a.channelId ++ "/users/" ++ userId.getD "",
        conversationState := a.channelId ++ "/conversations/" ++ conversationId.getD "" }

/-- A storage provider, reduced to its read capability over typed
documents (`storage.read`). -/
structure StorageModel where
  read : String → Option StoredDoc

/-- Source `PlanningDialog.loadBotState` (lines 574-580): read both documents,
defaulting each missing one to the empty object. -/
def loadBotState (storage : StorageModel) (keys : BotStateStorageKeys) : StoredBotState :=
  { userState :=
      match storage.read keys.userState with
      | some (StoredDoc.user u) => u
      | _ => {},
    conversationState :=
      match storage.read keys.conversationState with
      | some (StoredDoc.conv c) => c
      | _ => {} }

/-- The load phase of `PlanningDialog.onTurn` (lines 118-125): resolve
storage keys (which raises on missing ids), then, when no caller-supplied
state exists, raise unless a storage provider is assigned, else load.
Returns the keys, the state for the turn and the save flag.  This phase
performs no writes and no mutation of persisted or dialog state: an error
escapes before any state is touched. -/
def onTurnLoadPhase (storage : Option StorageModel) (state : Option StoredBotState)
    (a : Activity) : Except String (BotStateStorageKeys × StoredBotState × Bool) :=
  match getStorageKeys a with
  | Except.error e => Except.error e
  | Except.ok keys =>
    match state with
    | none =>
      match storage with
      | none => Except.error "PlanningDialog: unable to load the bots state. PlanningDialog.storage not assigned."
      | some st => Except.ok (keys, loadBotState st keys, true)
    | some s => Except.ok (keys, s, false)

--------------------------------------------------------------------------------
-- Recognition
--------------------------------------------------------------------------------

/-- A recognizer result (`{text, intents, entities}`); intents map names
to scores, entities map names to values. -/
structure RecognizerResult where
  text : String
  intents : List (String × Float)
  entities : List (String × String)

/-- An utterance recognizer, reduced to its `recognize` capability. -/
def Recognizer : Type := Activity → RecognizerResult

/-- Source `PlanningDialog.onRecognize` (lines 345-352): run the assigned
recognizer, or fall back to the default single-intent `None` result. -/
def onRecognize (recognizer : Option Recognizer) (a : Activity) : RecognizerResult :=
  let noneIntent : RecognizerResult :=
    { text := a.text.getD "",
      intents := [("None", 0.0)],
      entities := [] }
  match recognizer with
  | some r => r a
  | none => noneIntent

--------------------------------------------------------------------------------
-- The consultation protocol and error boundaries
--------------------------------------------------------------------------------

/-- Status of a dialog turn result. -/
inductive DialogTurnStatus where
  | empty
  | waiting
  | complete
  | cancelled
deriving DecidableEq, Repr

/-- A JavaScript error, reduced to the fields the dialog propagates. -/
structure JsError where
  message : String
  stack : String
deriving DecidableEq, Repr

/-- A dialog turn result.  `parentEnded` is an optional flag in the
source (`delete result.parentEnded` clears it); `cancellation` carries
the reason and payload of a cancel-all-dialogs transition. -/
structure DialogTurnResult where
  status : DialogTurnStatus
  parentEnded : Bool := false
  cancellation : Option (String × JsError) := none
deriving DecidableEq, Repr

/-- Consultation desires. -/
inductive DialogConsultationDesire where
  | canProcess
  | shouldProcess
deriving DecidableEq, Repr

/-- An entry of the dialog stack. -/
structure DialogInstance where
  id : String
deriving DecidableEq, Repr

/-- A queued plan step: the dialog to run, and its nested dialog stack
(absent until the step has begun, mirroring the optional
`dialogStack` field tested by `plan.steps[0].dialogStack &&
plan.steps[0].dialogStack.length > 0`). -/
structure PlanStepState where
  dialogId : String
  dialogStack : Option (List String) := none
deriving DecidableEq, Repr

/-- A plan: the ordered queue of pending steps. -/
structure PlanModel where
  steps : List PlanStepState
deriving DecidableEq, Repr

/-- The slice of the planning/dialog context threaded through
`consultPlan`: the dialog stack and the current plan.  Modelled from the
spec: the `DialogContext`/`PlanningContext` classes live outside this
source snapshot; the active dialog is the top (last entry) of the stack. -/
structure PlanningCtx where
  stack : List DialogInstance
  plan : Option PlanModel
deriving DecidableEq, Repr

/-- Source `PlanningDialog.getUniqueInstanceId` (lines 566-568): stack depth
joined with the active dialog instance id, or the empty string for an
empty stack. -/
def getUniqueInstanceId (dc : PlanningCtx) : String :=
  if dc.stack.length > 0 then
    toString dc.stack.length ++ ":" ++ ((dc.stack.getLast?.map (fun d => d.id)).getD "")
  else ""

/-- A consultation descriptor as returned by a step: its desire and its
processor (state passing made explicit). -/
structure DialogConsultation where
  desire : DialogConsultationDesire
  processor : PlanningCtx → PlanningCtx × DialogTurnResult

/-- Which plan-advancing effects the consultation processor performed. -/
structure StepTrace where
  endStepCalled : Bool
  continuedPlan : Bool
  reprompted : Bool
deriving DecidableEq, Repr

/-- Lines 511-515 of the processor in `PlanningDialog.consultPlan`: run
the consultation processor of the step (or an empty result when the step had
no consultation), then, if the result is a pass-through `empty` status
without `parentEnded`, begin the dialog of the step directly. -/
def stepPhase (consult : Option (PlanningCtx → PlanningCtx × DialogTurnResult))
    (beginStep : PlanningCtx → PlanningCtx × DialogTurnResult)
    (planning : PlanningCtx) : PlanningCtx × DialogTurnResult :=
  let r1 :=
    match consult with
    | some f => f planning
    | none => (planning, { status := DialogTurnStatus.empty })
  if r1.2.status = DialogTurnStatus.empty ∧ r1.2.parentEnded = false then
    beginStep r1.1
  else r1

/-- Does the current step of the plan already have an in-progress nested
stack (`plan && plan.steps.length > 0 && plan.steps[0].dialogStack &&
plan.steps[0].dialogStack.length > 0`)? -/
def planNeedsReprompt (plan : Option PlanModel) : Bool :=
  match plan with
  | some p =>
    match p.steps with
    | s0 :: _ =>
      match s0.dialogStack with
      | some (_ :: _) => true
      | _ => false
    | [] => false
  | none => false

/-- The step-result processing of the processor built by
`PlanningDialog.consultPlan` (lines 507-546), for a turn that has a
current step.  The step execution itself and the externally defined plan
operations (`endStep`, `continuePlan` recursion, `repromptDialog`) are
parameters; the returned `StepTrace` records which of them ran.  The
unique instance id is captured from `planning` before the step runs and
re-checked afterwards on the (possibly mutated) context. -/
def runPlanStep (consult : Option (PlanningCtx → PlanningCtx × DialogTurnResult))
    (beginStep : PlanningCtx → PlanningCtx × DialogTurnResult)
    (endStep : PlanningCtx → PlanningCtx)
    (continuePlanFn : PlanningCtx → PlanningCtx × DialogTurnResult)
    (repromptFn : PlanningCtx → PlanningCtx)
    (planning : PlanningCtx) : PlanningCtx × StepTrace × DialogTurnResult :=
  let instanceId := getUniqueInstanceId planning
  let r2 := stepPhase consult beginStep planning
  if r2.2.parentEnded = false ∧ getUniqueInstanceId r2.1 = instanceId then
    if r2.2.status = DialogTurnStatus.waiting then
      (r2.1, { endStepCalled := false, continuedPlan := false, reprompted := false }, r2.2)
    else
      let p3 := endStep r2.1
      if planNeedsReprompt p3.plan then
        (repromptFn p3,
          { endStepCalled := true, continuedPlan := false, reprompted := true },
          { status := DialogTurnStatus.waiting })
      else
        let r4 := continuePlanFn p3
        (r4.1, { endStepCalled := true, continuedPlan := true, reprompted := false }, r4.2)
  else
    (r2.1, { endStepCalled := false, continuedPlan := false, reprompted := false },
      { r2.2 with parentEnded := false })

/-- Models `DialogContext.cancelAllDialogs(reason, payload)`.  Modelled from the
spec: the dialog-context class is an external collaborator; cancelling
all dialogs is a terminal transition that produces a well-formed turn
result propagating the reason and error payload to the parent. -/
def cancelAllDialogs (reason : String) (payload : JsError) : DialogTurnResult :=
  { status := DialogTurnStatus.cancelled, cancellation := some (reason, payload) }

/-- The `try`/`catch` boundary of `PlanningDialog.beginDialog`
(lines 190-221): the body (rule evaluation plus plan continuation,
abstracted as a fallible computation) either returns a turn result or
throws, and a thrown error is converted into `cancelAllDialogs` with
reason `error` carrying the message and stack. -/
def beginDialogGuarded (body : Except JsError DialogTurnResult) : DialogTurnResult :=
  match body with
  | Except.ok r => r
  | Except.error err => cancelAllDialogs "error" { message := err.message, stack := err.stack }

/-- The `try`/`catch` boundary of `PlanningDialog.consultDialog`
(lines 223-257): a thrown error becomes a `shouldProcess` consultation
whose processor cancels all dialogs with reason `error`. -/
def consultDialogGuarded (body : Except JsError DialogConsultation) : DialogConsultation :=
  match body with
  | Except.ok c => c
  | Except.error err =>
    { desire := DialogConsultationDesire.shouldProcess,
      processor := fun dc =>
        (dc, cancelAllDialogs "error" { message := err.message, stack := err.stack }) }

/-- The `try`/`catch` boundary of `PlanningDialog.continuePlan`
(lines 550-558): consult the plan and run the returned processor; a
thrown error is converted into `cancelAllDialogs` with reason `error`. -/
def continuePlanGuarded (consult : PlanningCtx → Except JsError DialogTurnResult)
    (planning : PlanningCtx) : DialogTurnResult :=
  match consult planning with
  | Except.ok r => r
  | Except.error err => cancelAllDialogs "error" { message := err.message, stack := err.stack }

--------------------------------------------------------------------------------
-- Concrete rules and events used in counterexamples and witnesses
--------------------------------------------------------------------------------

/-- A generic named event. -/
def evC4 : DialogEvent := { name := "custom", bubble := false }

/-- A rule that always matches with one change list tagged `r0`. -/
def ruleR0 : Rule :=
  fun _ => some [{ changeType := PlanChangeType.doSteps, intentsMatched := some ["r0"] }]

/-- A rule that always matches with one change list tagged `r1`. -/
def ruleR1 : Rule :=
  fun _ => some [{ changeType := PlanChangeType.doSteps, intentsMatched := some ["r1"] }]

/-- A rule that always matches with one change list tagged `r2`. -/
def ruleR2 : Rule :=
  fun _ => some [{ changeType := PlanChangeType.doSteps, intentsMatched := some ["r2"] }]

/-- A rule that never matches. -/
def ruleNone : Rule := fun _ => none

/-- A candidate change list matching the single intent `x`. -/
def chX : PlanChangeList :=
  { changeType := PlanChangeType.doSteps, intentsMatched := some ["x"] }

/-- A candidate change list matching the intents `x` and `y`. -/
def chXY : PlanChangeList :=
  { changeType := PlanChangeType.doSteps, intentsMatched := some ["x", "y"] }

/-- A `newPlan` candidate matching the intent `a`. -/
def chNewA : PlanChangeList :=
  { changeType := PlanChangeType.newPlan, intentsMatched := some ["a"] }

/-- A `replacePlan` candidate matching the intent `b`. -/
def chRepB : PlanChangeList :=
  { changeType := PlanChangeType.replacePlan, intentsMatched := some ["b"] }

/-- A concrete stored bot state used to demonstrate save elision. -/
def stateC5 : StoredBotState :=
  { userState := { eTag := some "1" },
    conversationState := { eTag := some "2", lastAccess := some 5 } }

--------------------------------------------------------------------------------
-- Claims
--------------------------------------------------------------------------------

/-- Claim C1 (code bug).  The claim: with `expireAfter` configured and
`_lastAccess` at least `expireAfter` ms in the past, the conversation
state the new turn proceeds with is reset to only `{ eTag }`.  The code
instead overwrites the pre-turn snapshot variable (`state`, used only as
the save-diff baseline) and leaves the working clone (`newState`, on
which the `DialogContext` of the turn is built) untouched: at
`expireAfter = 600000`, `_lastAccess = 0` and `now = 601000`, the state
the turn proceeds with still carries the stale dialog stack and content,
while the snapshot got the cleared document. -/
theorem claim_C1_expiry_resets_snapshot_not_turn_state :
    ((onTurnPrepareState (some 600000) 601000
        { userState := {},
          conversationState :=
            { eTag := some "1", lastAccess := some 0,
              dialogs := some { dialogStack := ["active-dialog"] },
              data := [("topic", "pizza")] } }).2).conversationState =
      { eTag := some "1", lastAccess := some 601000,
        dialogs := some { dialogStack := ["active-dialog"] },
        data := [("topic", "pizza")] } ∧
    ((onTurnPrepareState (some 600000) 601000
        { userState := {},
          conversationState :=
            { eTag := some "1", lastAccess := some 0,
              dialogs := some { dialogStack := ["active-dialog"] },
              data := [("topic", "pizza")] } }).1).conversationState =
      { eTag := some "1" } := by
  decide

/-- Claim C2. For every recognized-utterance evaluation over any finite
list of candidate change lists: every pair of distinct winning change
lists has disjoint matched-intent sets, and whenever a winner and a
candidate it conflicts with (overlaps) are compared, the selected winner
has strictly more matched intents, or, with equally many matched intents,
at least as many matched entities. -/
theorem claim_C2_best_matches_disjoint_and_preferred (allChanges : List PlanChangeList) :
    ((selectLoop allChanges).map (fun e => e.2.1)).Pairwise
      (fun w1 w2 => ∀ s ∈ intentsOf w1, s ∉ intentsOf w2) ∧
    ∀ e ∈ selectLoop allChanges, ∀ c ∈ e.2.2,
      intentsOverlap e.2.1 c = true ∧
      ((intentsOf c).length < (intentsOf e.2.1).length ∨
        ((intentsOf c).length = (intentsOf e.2.1).length ∧
          (entitiesOf c).length ≤ (entitiesOf e.2.1).length)) :=
  ⟨selectLoop_pairwise_disjoint allChanges, selectLoop_preference allChanges⟩

/-- Witness for C2: among the two conflicting candidates with intents
`["x"]` and `["x", "y"]`, the winner is the one with two intents, it
overlaps the discarded one, and it has strictly more matched intents. -/
theorem claim_C2_witness :
    intentsOverlap chXY chX = true ∧
    ((intentsOf chX).length < (intentsOf chXY).length ∨
      ((intentsOf chX).length = (intentsOf chXY).length ∧
        (entitiesOf chX).length ≤ (entitiesOf chXY).length)) :=
  (claim_C2_best_matches_disjoint_and_preferred [chX, chXY]).2
    (1, chXY, [chX]) (by decide) chX (by decide)

/-- Claim C3. In every best-matches evaluation cycle at most one change
list is queued with change type `newPlan`/`replacePlan`, and with more
than one winner, every winning `newPlan`/`replacePlan` change list other
than the first such winner is queued with its change type rewritten to
`doStepsLater`. -/
theorem claim_C3_single_new_plan (allChanges : List PlanChangeList) :
    (((queueBestMatches allChanges).1).filter (fun c => isNewOrReplace c)).length ≤ 1 ∧
    (1 < (sortedWinners allChanges).length →
      ∀ p ∈ (removeFirstNewPlan (sortedWinners allChanges)).2,
        isNewOrReplace p.2 = true →
        { p.2 with changeType := PlanChangeType.doStepsLater } ∈
          (queueBestMatches allChanges).1) :=
  ⟨queueBestMatches_filter_le allChanges,
    fun h => queueBestMatches_demotes allChanges h⟩

/-- Witness for C3: with two non-overlapping winners `newPlan ["a"]` and
`replacePlan ["b"]`, the second is queued demoted to `doStepsLater`. -/
theorem claim_C3_witness :
    { chRepB with changeType := PlanChangeType.doStepsLater } ∈
      (queueBestMatches [chNewA, chRepB]).1 :=
  (claim_C3_single_new_plan [chNewA, chRepB]).2
    (by decide) (0, chRepB) (by decide) (by decide)

/-- Claim C4 counterexample.  The claim states: whenever rule `i` precedes
rule `j` and both would return a non-empty change list, the queued change
list is the first change list of rule `i`.  With three always-matching rules
and `i = 1`, `j = 2`: rule 1 and rule 2 both match, yet the queued change
list comes from rule 0, not from rule 1. -/
theorem claim_C4_counterexample :
    ruleMatches ruleR1 evC4 = true ∧
    ruleMatches ruleR2 evC4 = true ∧
    (queueFirstMatch [ruleR0, ruleR1, ruleR2] evC4).1 ≠
      [{ changeType := PlanChangeType.doSteps, intentsMatched := some ["r1"] }] ∧
    (queueFirstMatch [ruleR0, ruleR1, ruleR2] evC4).1 =
      [{ changeType := PlanChangeType.doSteps, intentsMatched := some ["r0"] }] := by
  decide

/-- Claim C4 (amended).  For every registered rule list and every event
handled by first-match: if rule `i` returns a non-empty change list and
every rule before `i` does not, then exactly one change list is queued —
the first change list returned by rule `i` — the event is handled, and
only rules `0..i` are evaluated (rules after `i` never run). -/
theorem claim_C4_first_match (rules : List Rule) (event : DialogEvent)
    (i : Nat) (hi : i < rules.length) (c : PlanChangeList) (cs : List PlanChangeList)
    (hmatch : (rules.get ⟨i, hi⟩) event = some (c :: cs))
    (hprior : ∀ (k : Nat) (hk : k < i),
      ruleMatches (rules.get ⟨k, Nat.lt_trans hk hi⟩) event = false) :
    queueFirstMatch rules event = ([c], true, i + 1) :=
  queueFirstMatch_first_rule_wins rules event i hi c cs hmatch hprior

/-- Witness for the amended C4: rule 1 is the first matching rule of
three; its single change list is queued, and only two rules were
evaluated. -/
theorem claim_C4_witness :
    queueFirstMatch [ruleNone, ruleR1, ruleR2] evC4 =
      ([{ changeType := PlanChangeType.doSteps, intentsMatched := some ["r1"] }], true, 2) :=
  claim_C4_first_match [ruleNone, ruleR1, ruleR2] evC4 1 (by decide)
    { changeType := PlanChangeType.doSteps, intentsMatched := some ["r1"] } []
    rfl (by decide)

/-- Claim C5. For every call to `saveBotState` with a pre-turn snapshot
supplied: if the post-turn `userState` and `conversationState` are equal
by value to the pre-turn ones, `storage.write` is never invoked and no
document is persisted. -/
theorem claim_C5_save_elision (keys : BotStateStorageKeys) (newState : StoredBotState)
    (old : StoredBotState) (eTag : Option String)
    (hu : newState.userState = old.userState)
    (hc : newState.conversationState = old.conversationState) :
    (saveBotState keys newState (some old) eTag).written = none := by
  simp [saveBotState, hu, hc]

/-- Witness for C5: identical pre- and post-turn states produce no
write. -/
theorem claim_C5_witness :
    (saveBotState { userState := "c/users/u", conversationState := "c/conversations/x" }
      stateC5 (some stateC5) (some "*")).written = none :=
  claim_C5_save_elision _ _ _ _ rfl rfl

/-- Claim C6. In the consultation processor of `consultPlan`, the unique
instance id (stack depth joined with the active dialog instance id) is
captured before delegating to the current step; if after the step runs
the id differs from the captured one, or the result carries
`parentEnded`, the step result is returned (with the `parentEnded` flag
removed) without calling `endStep()` and without plan continuation or
re-prompting. -/
theorem claim_C6_stale_instance_returns_result
    (consult : Option (PlanningCtx → PlanningCtx × DialogTurnResult))
    (beginStep : PlanningCtx → PlanningCtx × DialogTurnResult)
    (endStep : PlanningCtx → PlanningCtx)
    (continuePlanFn : PlanningCtx → PlanningCtx × DialogTurnResult)
    (repromptFn : PlanningCtx → PlanningCtx)
    (planning : PlanningCtx)
    (hstale : (stepPhase consult beginStep planning).2.parentEnded = true ∨
      getUniqueInstanceId (stepPhase consult beginStep planning).1 ≠
        getUniqueInstanceId planning) :
    runPlanStep consult beginStep endStep continuePlanFn repromptFn planning =
      ((stepPhase consult beginStep planning).1,
        { endStepCalled := false, continuedPlan := false, reprompted := false },
        { (stepPhase consult beginStep planning).2 with parentEnded := false }) := by
  have hncond : ¬((stepPhase consult beginStep planning).2.parentEnded = false ∧
      getUniqueInstanceId (stepPhase consult beginStep planning).1 =
        getUniqueInstanceId planning) := by
    rcases hstale with h | h
    · intro hcon
      rw [hcon.1] at h
      cases h
    · intro hcon
      exact h hcon.2
  simp only [runPlanStep]
  rw [if_neg hncond]

/-- Witness for C6: a step whose consultation cancels the whole stack
(the container vanishes, so the recomputed unique instance id is `""`);
the cancellation result is returned unmodified and no `endStep`, plan
continuation or re-prompt happens. -/
theorem claim_C6_witness :
    runPlanStep
      (some (fun _ => ({ stack := [], plan := none },
        { status := DialogTurnStatus.cancelled })))
      (fun p => (p, { status := DialogTurnStatus.empty }))
      (fun p => p)
      (fun p => (p, { status := DialogTurnStatus.empty }))
      (fun p => p)
      { stack := [{ id := "planning" }], plan := none } =
      ({ stack := [], plan := none },
        { endStepCalled := false, continuedPlan := false, reprompted := false },
        { status := DialogTurnStatus.cancelled, parentEnded := false }) :=
  claim_C6_stale_instance_returns_result _ _ _ _ _ _ (Or.inr (by decide))

/-- Claim C7. Every error thrown during `beginDialog`, the consultation
of `consultDialog`, or `continuePlan` is caught at the dialog boundary and
converted into `cancelAllDialogs` with reason `error` and a payload
carrying the message and stack of the error, so the caller receives a
well-formed (cancelled) dialog turn result instead of a propagated
exception. -/
theorem claim_C7_errors_become_cancellation (err : JsError)
    (consult : PlanningCtx → Except JsError DialogTurnResult)
    (planning : PlanningCtx)
    (hthrow : consult planning = Except.error err) :
    beginDialogGuarded (Except.error err) =
      cancelAllDialogs "error" { message := err.message, stack := err.stack } ∧
    (consultDialogGuarded (Except.error err)).desire =
      DialogConsultationDesire.shouldProcess ∧
    (consultDialogGuarded (Except.error err)).processor planning =
      (planning, cancelAllDialogs "error" { message := err.message, stack := err.stack }) ∧
    continuePlanGuarded consult planning =
      cancelAllDialogs "error" { message := err.message, stack := err.stack } ∧
    (cancelAllDialogs "error" { message := err.message, stack := err.stack }).status =
      DialogTurnStatus.cancelled := by
  refine ⟨rfl, rfl, rfl, ?_, rfl⟩
  unfold continuePlanGuarded
  rw [hthrow]

/-- Witness for C7 at a concrete error and consultation. -/
theorem claim_C7_witness :
    beginDialogGuarded (Except.error { message := "boom", stack := "at step" }) =
      cancelAllDialogs "error" { message := "boom", stack := "at step" } ∧
    (consultDialogGuarded (Except.error { message := "boom", stack := "at step" })).desire =
      DialogConsultationDesire.shouldProcess ∧
    (consultDialogGuarded
        (Except.error { message := "boom", stack := "at step" })).processor
      { stack := [], plan := none } =
      ({ stack := [], plan := none },
        cancelAllDialogs "error" { message := "boom", stack := "at step" }) ∧
    continuePlanGuarded (fun _ => Except.error { message := "boom", stack := "at step" })
      { stack := [], plan := none } =
      cancelAllDialogs "error" { message := "boom", stack := "at step" } ∧
    (cancelAllDialogs "error" { message := "boom", stack := "at step" }).status =
      DialogTurnStatus.cancelled :=
  claim_C7_errors_become_cancellation { message := "boom", stack := "at step" }
    (fun _ => Except.error { message := "boom", stack := "at step" })
    { stack := [], plan := none } rfl

/-- Claim C8. For every call to `onTurn` with no caller-supplied state: if
no storage provider is assigned, or no user id is derivable from the
activity (including the membership-change recovery for
conversation-update activities), or no conversation id is present, the
load phase raises an error; no persisted or dialog state is touched
(the phase produces no writes). -/
theorem claim_C8_load_phase_errors (storage : Option StorageModel) (a : Activity)
    (hbad : storage = none ∨ optTruthy (patchedUserId a) = false ∨
      optTruthy (rawConversationId a) = false) :
    ∃ msg, onTurnLoadPhase storage none a = Except.error msg := by
  cases hk : getStorageKeys a with
  | error e =>
    refine ⟨e, ?_⟩
    unfold onTurnLoadPhase
    rw [hk]
  | ok keys =>
    have hsn : storage = none := by
      rcases hbad with h | h | h
      · exact h
      · exfalso
        simp only [getStorageKeys] at hk
        rw [if_pos h] at hk
        cases hk
      · exfalso
        simp only [getStorageKeys] at hk
        by_cases hu : optTruthy (patchedUserId a) = false
        · rw [if_pos hu] at hk
          cases hk
        · rw [if_neg hu, if_pos h] at hk
          cases hk
    subst hsn
    refine ⟨"PlanningDialog: unable to load the bots state. PlanningDialog.storage not assigned.", ?_⟩
    unfold onTurnLoadPhase
    rw [hk]

/-- Witness for C8: no storage assigned and an activity with no sender
or conversation ids. -/
theorem claim_C8_witness :
    ∃ msg, onTurnLoadPhase none none { type := "message" } = Except.error msg :=
  claim_C8_load_phase_errors none { type := "message" } (Or.inl rfl)

/-- Claim C9. For every turn with no recognizer assigned, `onRecognize`
returns a result whose text is the text of the activity (or the empty
string), whose intents map contains exactly the single intent `None`
with score `0.0`, and whose entities map is empty; the
recognized-utterance event is dispatched with exactly this value
(`evaluateRules` passes the `onRecognize` result through unchanged). -/
theorem claim_C9_default_recognizer (a : Activity) :
    onRecognize none a =
      { text := a.text.getD "", intents := [("None", 0.0)], entities := [] } :=
  rfl

/-- Claim C10. The best-match selection loop terminates: `findBestChange`
returns `-1` exactly when the candidate list is empty; each iteration
strictly shrinks the remaining candidate list, so the number of
iterations (winners) is bounded by the number of candidates. -/
theorem claim_C10_selection_terminates (l : List PlanChangeList) :
    (findBestChange l = -1 ↔ l = []) ∧
    (selectLoop l).length ≤ l.length ∧
    ∀ h : 0 ≤ findBestChange l,
      ((l.eraseIdx (findBestChange l).toNat).filter
        (fun c => !intentsOverlap (l.get ⟨(findBestChange l).toNat,
          findBestChange_toNat_lt l h⟩) c)).length < l.length := by
  refine ⟨findBestChange_eq_neg_one_iff l, ?_, fun h => selectLoop_kept_length_lt l h⟩
  have hlen : ∀ (fuel : Nat) (m : List PlanChangeList),
      (selectLoopFuel fuel m).length ≤ fuel := by
    intro fuel
    induction fuel with
    | zero => intro m; simp [selectLoopFuel]
    | succ fuel ih =>
      intro m
      rw [selectLoopFuel]
      split
      · simpa using Nat.succ_le_succ (ih _)
      · simp
  exact hlen l.length l

/-- Witness for C10: on a one-candidate list the remaining candidate
list after the single iteration is strictly shorter. -/
theorem claim_C10_witness :
    ((([{ changeType := PlanChangeType.doSteps }] : List PlanChangeList).eraseIdx
        (findBestChange [{ changeType := PlanChangeType.doSteps }]).toNat).filter
      (fun c => !intentsOverlap
        (([{ changeType := PlanChangeType.doSteps }] : List PlanChangeList).get
          ⟨(findBestChange [{ changeType := PlanChangeType.doSteps }]).toNat,
            findBestChange_toNat_lt _ (by decide)⟩) c)).length <
      ([{ changeType := PlanChangeType.doSteps }] : List PlanChangeList).length :=
  (claim_C10_selection_terminates [{ changeType := PlanChangeType.doSteps }]).2.2 (by decide)

end Planning
